import Mathlib

/-!
Verification of the `rust-log4rs-logstash` log-shipping client against its
specification.  The development shallowly embeds the two source files
(`logstash-rs/src/event.rs` and `log4rs-logstash/src/appender.rs`): pure Rust
functions become Lean functions, the `serde` map serializer is modelled as the
ordered list of key/value entries it emits, and the `HashMap` of extra fields
is modelled as an association list with unique keys and unspecified order.
-/

namespace LogStash

/-- JSON values, mirroring `serde_json::Value`. -/
inductive JValue where
  | null : JValue
  | bool : Bool → JValue
  | num : Int → JValue
  | str : String → JValue
  | arr : List JValue → JValue
  | obj : List (String × JValue) → JValue

/-- Embedding of `log::Level`: the fixed ordered set of severities (event.rs line 42 uses
`log::Level`). -/
inductive Level where
  | error | warn | info | debug | trace
deriving DecidableEq, Repr

/-- Embedding of `log::Level::as_str` — the canonical upper-case level names used by the
`log` crate, which `SerializableLevel::serialize` (event.rs lines 190-197)
writes as a JSON string. -/
def Level.as_str : Level → String
  | .error => "ERROR"
  | .warn => "WARN"
  | .info => "INFO"
  | .debug => "DEBUG"
  | .trace => "TRACE"

/-- Embedding of `TimePrecision` (event.rs lines 10-23). -/
inductive TimePrecision where
  | secs | millis | micros | nanos
deriving DecidableEq, Repr

/-- Embedding of `chrono::DateTime<Utc>`, stored at full precision: seconds since the Unix
epoch plus the sub-second nanoseconds (`0 ≤ nanos < 10^9` for every value
chrono produces). -/
structure DateTimeUtc where
  secs : Int
  nanos : Nat
deriving DecidableEq, Repr

/-- Embedding of `std::time::Duration` restricted to what the appender uses
(`Duration::from_secs`). -/
structure Duration where
  secs : Nat
deriving DecidableEq, Repr

/-- Embedding of `LogStashRecord` (event.rs lines 36-46).  `fields` is a `HashMap`: an
association list whose keys are unique; its iteration order is not
semantically significant. -/
structure LogStashRecord where
  timestamp : DateTimeUtc
  module : Option String
  file : Option String
  line : Option Nat
  level : Level
  target : String
  time_precision : TimePrecision
  fields : List (String × JValue)

/-! ### RFC 3339 rendering of `SerializableDateTime` (event.rs lines 151-182)

`SerializableDateTime::serialize` calls chrono's
`to_rfc3339_opts(self.time_precision.into(), true)`, with the
`From<TimePrecision> for SecondsFormat` conversion of event.rs lines 25-34.
The chrono behaviour is embedded below: date and time-of-day derived from the
epoch seconds (Howard Hinnant's civil-from-days algorithm, as used by the
calendar arithmetic chrono performs), a fractional part of exactly 0, 3, 6 or
9 zero-padded digits taken from the stored nanoseconds, and — because the
`use_z` argument is `true` and the zone is `Utc` — a trailing `Z` designator.
-/

/-- Render the low `w` decimal digits of `n`, zero-padded to exactly width
`w`; faithful to fixed-width decimal rendering whenever `n < 10 ^ w`. -/
def padNum : Nat → Nat → List Char
  | 0, _ => []
  | w + 1, n => padNum w (n / 10) ++ [Char.ofNat (48 + n % 10)]

/-- Civil date (year, month, day) of a day count relative to 1970-01-01. -/
def civilFromDays (z : Int) : Int × Nat × Nat :=
  let z' := z + 719468
  let era := z'.fdiv 146097
  let doe := (z' - era * 146097).toNat
  let yoe := (doe - doe / 1460 + doe / 36524 - doe / 146096) / 365
  let doy := doe - (365 * yoe + yoe / 4 - yoe / 100)
  let mp := (5 * doy + 2) / 153
  let d := doy - (153 * mp + 2) / 5 + 1
  let m := if mp < 10 then mp + 3 else mp - 9
  let y := era * 400 + yoe
  (if m ≤ 2 then y + 1 else y, m, d)

/-- The date-and-time part of the RFC 3339 rendering: everything before the
fractional seconds, `YYYY-MM-DDTHH:MM:SS`.  Depends only on the epoch
seconds, never on the precision or the nanoseconds. -/
def dateTimePart (secs : Int) : String :=
  let days := secs.fdiv 86400
  let sod := (secs - days * 86400).toNat
  let ymd := civilFromDays days
  String.mk
    (padNum 4 ymd.1.toNat ++ ['-'] ++ padNum 2 ymd.2.1 ++ ['-'] ++ padNum 2 ymd.2.2
      ++ ['T'] ++ padNum 2 (sod / 3600) ++ [':'] ++ padNum 2 (sod % 3600 / 60)
      ++ [':'] ++ padNum 2 (sod % 60))

/-- The fractional-second part chosen by the `SecondsFormat` that
`From<TimePrecision>` selects: nothing for `Secs`, a dot and exactly 3, 6 or
9 digits for `Millis`, `Micros`, `Nanos`. -/
def fracPart (nanos : Nat) : TimePrecision → List Char
  | .secs => []
  | .millis => '.' :: padNum 3 (nanos / 1000000)
  | .micros => '.' :: padNum 6 (nanos / 1000)
  | .nanos => '.' :: padNum 9 nanos

/-- Embedding of `to_rfc3339_opts(precision.into(), true)` on a UTC date-time: the
date-time part, the fractional part, then the `Z` UTC designator. -/
def toRfc3339Opts (dt : DateTimeUtc) (prec : TimePrecision) : String :=
  dateTimePart dt.secs ++ String.mk (fracPart dt.nanos prec) ++ "Z"

/-! ### The impl of `serde::Serialize for LogStashRecord` (event.rs lines 48-79)

`serialize` drives a `serde` map serializer: it emits, in program order, one
`serialize_entry` per key/value pair.  The embedding is the ordered list of
those entries.  A JSON serializer writes the object's members in exactly this
list order (and does not deduplicate keys). -/

/-- The entries emitted for the optional fields `module`, `file`, `line`
(event.rs lines 60-68): one entry when the option is set, none otherwise. -/
def optEntry (key : String) (f : α → JValue) : Option α → List (String × JValue)
  | some a => [(key, f a)]
  | none => []

/-- The fixed-key entries of `LogStashRecord::serialize` (event.rs lines
55-71), in emission order: `@timestamp`, then `module`/`file`/`line` when
set, then `level` and `target`. -/
def fixedEntries (r : LogStashRecord) : List (String × JValue) :=
  [("@timestamp", JValue.str (toRfc3339Opts r.timestamp r.time_precision))]
    ++ optEntry "module" JValue.str r.module
    ++ optEntry "file" JValue.str r.file
    ++ optEntry "line" (fun l => JValue.num l) r.line
    ++ [("level", JValue.str r.level.as_str), ("target", JValue.str r.target)]

/-- Embedding of `LogStashRecord::serialize` (event.rs lines 48-79): the fixed entries
followed by every entry of `fields` (event.rs lines 73-75). -/
def serializeEntries (r : LogStashRecord) : List (String × JValue) :=
  fixedEntries r ++ r.fields

/-- The keys of a list of emitted entries, in emission order. -/
def keysOf (xs : List (String × JValue)) : List String :=
  xs.map Prod.fst

/-- How often a key occurs among emitted entries. -/
def countKey (k : String) (xs : List (String × JValue)) : Nat :=
  xs.countP (fun e => e.1 = k)

/-! ### Record construction (event.rs lines 81-149) -/

/-- Embedding of `HashMap::insert`: replace the value when the key is present, otherwise
add the binding; keys stay unique. -/
def hashInsert (xs : List (String × JValue)) (k : String) (v : JValue) :
    List (String × JValue) :=
  if xs.any (fun e => e.1 = k) then
    xs.map (fun e => if e.1 = k then (k, v) else e)
  else xs ++ [(k, v)]

/-- Embedding of `Default for LogStashRecord` (event.rs lines 136-149).  `Utc::now()` is
ambient input, passed in as `now`. -/
def LogStashRecord.defaultRecord (now : DateTimeUtc) : LogStashRecord where
  timestamp := now
  level := .warn
  time_precision := .millis
  module := none
  file := none
  line := none
  target := ""
  fields := []

/-- Embedding of `LogStashRecord::new` (event.rs lines 83-88): the default record with
`timestamp` set to the current time. -/
def LogStashRecord.new (now : DateTimeUtc) : LogStashRecord :=
  { LogStashRecord.defaultRecord now with timestamp := now }

/-- Embedding of `LogStashRecord::add_data` (event.rs lines 114-117). -/
def LogStashRecord.add_data (r : LogStashRecord) (k : String) (v : JValue) :
    LogStashRecord :=
  { r with fields := hashInsert r.fields k v }

/-- Embedding of `log::Record`: what the host logging facade hands the adapter — level,
target, optional source location, and the rendered message (`args`). -/
structure LogRecord where
  module_path : Option String
  file : Option String
  line : Option Nat
  level : Level
  target : String
  args : String

/-- Embedding of `LogStashRecord::from_record` (event.rs lines 90-102). -/
def LogStashRecord.from_record (now : DateTimeUtc) (record : LogRecord) :
    LogStashRecord :=
  let event := LogStashRecord.new now
  let event := { event with
    module := record.module_path
    file := record.file
    line := record.line
    level := record.level
    target := record.target
    time_precision := .millis }
  event.add_data "message" (JValue.str record.args)

/-! ### The appender (log4rs-logstash/src/appender.rs) -/

/-- Modelled from the spec: `TcpSender` lives in the `logstash-rs` crate whose
transport source is not part of this repository snapshot; §4.3 describes it as
owning the connection to the configured host and port.  Its constructor, as
called by `AppenderBuilder::build` (appender.rs line 96), receives exactly the
hostname and the port. -/
structure TcpSender where
  hostname : String
  port : Nat
deriving DecidableEq, Repr

/-- Embedding of `TcpSender::new(hostname, port)` as invoked at appender.rs line 96. -/
def TcpSender.new (hostname : String) (port : Nat) : TcpSender :=
  ⟨hostname, port⟩

/-- Modelled from the spec: `BufferedTCPSender` (the Buffer of §4.2 wrapping
the Transport of §4.3) is in the `logstash-rs` crate, outside this snapshot.
Its constructor, as called by `AppenderBuilder::build` (appender.rs lines
95-98), receives exactly the inner sender and the optional buffer size. -/
structure BufferedTCPSender where
  sender : TcpSender
  buffer_size : Option Nat
deriving DecidableEq, Repr

/-- Embedding of `BufferedTCPSender::new(sender, buffer_size)` as invoked at appender.rs
lines 95-98. -/
def BufferedTCPSender.new (sender : TcpSender) (buffer_size : Option Nat) :
    BufferedTCPSender :=
  ⟨sender, buffer_size⟩

/-- Embedding of `AppenderBuilder` (appender.rs lines 20-29). -/
structure AppenderBuilder where
  level : Option Level
  hostname : String
  port : Nat
  buffer_size : Option Nat
  buffer_lifetime : Option Duration
  write_timeout : Option Duration
  connection_timeout : Option Duration
deriving DecidableEq, Repr

/-- Embedding of `Default for AppenderBuilder` (appender.rs lines 31-43). -/
def AppenderBuilder.defaultBuilder : AppenderBuilder where
  level := none
  hostname := "127.0.0.1"
  port := 5044
  buffer_size := some 1024
  buffer_lifetime := some ⟨1⟩
  write_timeout := some ⟨10⟩
  connection_timeout := some ⟨10⟩

/-- Embedding of `AppenderBuilder::build` (appender.rs lines 93-100): wraps a
`TcpSender::new(hostname, port)` in a `BufferedTCPSender::new(·, buffer_size)`
— nothing else from the builder reaches the constructed appender. -/
def AppenderBuilder.build (b : AppenderBuilder) : BufferedTCPSender :=
  BufferedTCPSender.new (TcpSender.new b.hostname b.port) b.buffer_size

/-- The transport/send failures of §7 that `sender.send` can surface. -/
inductive SendError where
  | connectTimeout | connectFailed | writeTimeout | writeFailed
deriving DecidableEq, Repr

/-- The failure outcomes of `Appender::append` (appender.rs lines 116-136):
the mutex lock can fail (mapped to an error at line 132), or `sender.send`
can fail (propagated by `?` at line 134). -/
inductive AppendError where
  | lockFailed
  | sendError : SendError → AppendError
deriving DecidableEq, Repr

/-- The observable outcome of one `Appender::append` call: its returned
result together with how many times it invoked `sender.send`. -/
structure AppendOutcome where
  result : Except AppendError Unit
  sendCalls : Nat

/-- Embedding of `Appender::append` (appender.rs lines 116-136), traced.  The ambient
inputs are whether `self.sender.lock()` succeeds and what the single
`sender.send(&event)` call would return.  On lock failure the error from line
132 is returned without calling `send`; otherwise `send` is called exactly
once and its result is propagated. -/
def appenderAppend (lockOk : Bool) (sendResult : Except SendError Unit) :
    AppendOutcome :=
  if lockOk then
    match sendResult with
    | .ok _ => ⟨.ok (), 1⟩
    | .error e => ⟨.error (.sendError e), 1⟩
  else ⟨.error .lockFailed, 0⟩

/-! ### Statement abbreviations and concrete sample inputs -/

/-- What claim C2 asserts of one date-time: the `Secs` rendering is the
date-time part followed by the UTC designator alone; each sub-second
precision renders the same date-time part, then a dot, then exactly 3, 6, 9
decimal digits, then the designator; and every rendering ends in `Z`. -/
def PrecisionSpec (dt : DateTimeUtc) : Prop :=
  toRfc3339Opts dt .secs = dateTimePart dt.secs ++ "Z" ∧
  toRfc3339Opts dt .millis
      = dateTimePart dt.secs ++ "." ++ String.mk (padNum 3 (dt.nanos / 1000000)) ++ "Z" ∧
  toRfc3339Opts dt .micros
      = dateTimePart dt.secs ++ "." ++ String.mk (padNum 6 (dt.nanos / 1000)) ++ "Z" ∧
  toRfc3339Opts dt .nanos
      = dateTimePart dt.secs ++ "." ++ String.mk (padNum 9 dt.nanos) ++ "Z" ∧
  (String.mk (padNum 3 (dt.nanos / 1000000))).length = 3 ∧
  (String.mk (padNum 6 (dt.nanos / 1000))).length = 6 ∧
  (String.mk (padNum 9 dt.nanos)).length = 9 ∧
  (∀ c ∈ padNum 3 (dt.nanos / 1000000), c.isDigit) ∧
  (∀ c ∈ padNum 6 (dt.nanos / 1000), c.isDigit) ∧
  (∀ c ∈ padNum 9 dt.nanos, c.isDigit) ∧
  (∀ prec, ∃ s, toRfc3339Opts dt prec = s ++ "Z")

/-- What claim C5 asserts of one record: each optional key appears among the
serialized keys exactly when the option is set, and no entry under an
optional key with the option unset exists at all (in particular none with a
`null` value). -/
def OptionalKeySpec (r : LogStashRecord) : Prop :=
  ("module" ∈ keysOf (serializeEntries r) ↔ r.module.isSome) ∧
  ("file" ∈ keysOf (serializeEntries r) ↔ r.file.isSome) ∧
  ("line" ∈ keysOf (serializeEntries r) ↔ r.line.isSome) ∧
  (r.module = none → ∀ v, ("module", v) ∉ serializeEntries r) ∧
  (r.file = none → ∀ v, ("file", v) ∉ serializeEntries r) ∧
  (r.line = none → ∀ v, ("line", v) ∉ serializeEntries r)

/-- What claim C10 asserts of one record and one colliding key: the key is
emitted exactly twice — once by the fixed part, once by the `fields` part —
and both the fixed entry and the fields entry survive into the output. -/
def DuplicateKeySpec (r : LogStashRecord) (k : String) : Prop :=
  countKey k (serializeEntries r) = 2 ∧
  countKey k (fixedEntries r) = 1 ∧
  countKey k r.fields = 1 ∧
  (∀ v, (k, v) ∈ fixedEntries r → (k, v) ∈ serializeEntries r) ∧
  (∀ v, (k, v) ∈ r.fields → (k, v) ∈ serializeEntries r)

/-- A concrete date-time (2023-11-14T22:13:20.123456789Z). -/
def dtSample : DateTimeUtc := ⟨1700000000, 123456789⟩

/-- A concrete record with optional `module` and `line` set, `file` unset,
and a disjoint `fields` mapping. -/
def sampleRecord : LogStashRecord where
  timestamp := ⟨0, 0⟩
  module := some "app::mod"
  file := none
  line := some 7
  level := .info
  target := "app"
  time_precision := .millis
  fields := [("message", JValue.str "hello")]

/-- A concrete record whose `fields` mapping reuses the fixed key
`"level"`. -/
def collisionRecord : LogStashRecord where
  timestamp := ⟨0, 0⟩
  module := none
  file := none
  line := none
  level := .warn
  target := ""
  time_precision := .secs
  fields := [("level", JValue.str "shadowed")]

/-! ## Theorems -/

/-- Key occurrence counts distribute over the two halves of an emitted entry
list. -/
theorem countKey_append (k : String) (xs ys : List (String × JValue)) :
    countKey k (xs ++ ys) = countKey k xs + countKey k ys := by
  simp [countKey, List.countP_append]

/-- Lemma: `countKey` is the multiplicity of the key in the key list. -/
theorem countKey_eq_count (k : String) (xs : List (String × JValue)) :
    countKey k xs = (keysOf xs).count k := by
  induction xs with
  | nil => rfl
  | cons e xs ih =>
    simp [countKey, keysOf, List.countP_cons, List.count_cons, beq_iff_eq] at ih ⊢
    simp [ih, countKey, keysOf]

/-- The fixed part of the serializer never emits the same key twice. -/
theorem fixedEntries_keys_nodup (r : LogStashRecord) :
    (keysOf (fixedEntries r)).Nodup := by
  rcases r with ⟨ts, m, f, l, lv, tg, tp, fs⟩
  cases m <;> cases f <;> cases l <;>
    simp [keysOf, fixedEntries, optEntry]

/-- C9: the default configuration produced by `AppenderBuilder::default` has
hostname `127.0.0.1`, port `5044`, buffer size `1024` events, buffer
lifetime 1 s, write timeout 10 s, connection timeout 10 s and no minimum
level. -/
theorem c9_default_builder_configuration :
    AppenderBuilder.defaultBuilder.hostname = "127.0.0.1" ∧
    AppenderBuilder.defaultBuilder.port = 5044 ∧
    AppenderBuilder.defaultBuilder.buffer_size = some 1024 ∧
    AppenderBuilder.defaultBuilder.buffer_lifetime = some ⟨1⟩ ∧
    AppenderBuilder.defaultBuilder.write_timeout = some ⟨10⟩ ∧
    AppenderBuilder.defaultBuilder.connection_timeout = some ⟨10⟩ ∧
    AppenderBuilder.defaultBuilder.level = none :=
  ⟨rfl, rfl, rfl, rfl, rfl, rfl, rfl⟩

/-- C3 (refuting): the appender `AppenderBuilder::build` constructs receives
only the hostname, port and buffer size — at the default configuration the
whole built value is `BufferedTCPSender::new(TcpSender::new("127.0.0.1",
5044), Some(1024))`, and changing `buffer_lifetime`, `write_timeout` or
`connection_timeout` to anything at all leaves the built appender unchanged,
so the built appender cannot honor those three settings. -/
theorem c3_build_ignores_lifetime_and_timeouts :
    AppenderBuilder.defaultBuilder.build
        = BufferedTCPSender.new (TcpSender.new "127.0.0.1" 5044) (some 1024) ∧
    ∀ (b : AppenderBuilder) (lt wt ct : Option Duration),
      AppenderBuilder.build
          { b with buffer_lifetime := lt, write_timeout := wt,
                   connection_timeout := ct }
        = b.build :=
  ⟨rfl, fun _ _ _ _ => rfl⟩

/-- C8: `Appender::append` fails exactly when the mutex lock fails (yielding
`LockFailed` without touching `send`) or when the single `send` call errors
(whose error is propagated); it succeeds otherwise and never calls `send`
more than once within the call. -/
theorem c8_append_failure_policy (lockOk : Bool)
    (sendResult : Except SendError Unit) :
    (appenderAppend lockOk sendResult).result
        = (if lockOk then Except.mapError AppendError.sendError sendResult
           else Except.error AppendError.lockFailed) ∧
    (appenderAppend lockOk sendResult).sendCalls = (if lockOk then 1 else 0) ∧
    (appenderAppend lockOk sendResult).sendCalls ≤ 1 := by
  cases lockOk <;> cases sendResult <;> simp [appenderAppend, Except.mapError]

/-- C6: records built by `new` or `Default` carry the creation time as
timestamp, level `Warn` and the empty target; and every record serializes
`level` and `target` unconditionally. -/
theorem c6_constructor_invariants (now : DateTimeUtc) :
    (LogStashRecord.new now).timestamp = now ∧
    (LogStashRecord.defaultRecord now).timestamp = now ∧
    (LogStashRecord.new now).level = Level.warn ∧
    (LogStashRecord.defaultRecord now).level = Level.warn ∧
    (LogStashRecord.new now).target = "" ∧
    (LogStashRecord.defaultRecord now).target = "" ∧
    ∀ r : LogStashRecord,
      "level" ∈ keysOf (serializeEntries r) ∧
      "target" ∈ keysOf (serializeEntries r) := by
  refine ⟨rfl, rfl, rfl, rfl, rfl, rfl, fun r => ⟨?_, ?_⟩⟩ <;>
    simp [keysOf, serializeEntries, fixedEntries, optEntry]

/-- C7: for every incoming log record the adapter's record builder
(`LogStashRecord::from_record`) produces a record whose timestamp is the
current time, whose precision is milliseconds, whose `fields` bind
`"message"` to the rendered message, and which carries the caller's module
path, file and line verbatim. -/
theorem c7_from_record_shape (now : DateTimeUtc) (rec : LogRecord) :
    (LogStashRecord.from_record now rec).timestamp = now ∧
    (LogStashRecord.from_record now rec).time_precision = TimePrecision.millis ∧
    (LogStashRecord.from_record now rec).fields
        = [("message", JValue.str rec.args)] ∧
    (LogStashRecord.from_record now rec).module = rec.module_path ∧
    (LogStashRecord.from_record now rec).file = rec.file ∧
    (LogStashRecord.from_record now rec).line = rec.line := by
  refine ⟨rfl, rfl, ?_, rfl, rfl, rfl⟩
  simp [LogStashRecord.from_record, LogStashRecord.add_data, hashInsert,
        LogStashRecord.new, LogStashRecord.defaultRecord]

/-- An entry cannot occur in an emitted list whose key list avoids its
key. -/
theorem not_mem_of_key_not_mem (k : String) (xs : List (String × JValue))
    (v : JValue) (h : k ∉ keysOf xs) : (k, v) ∉ xs := fun hmem =>
  h (by simpa [keysOf] using List.mem_map_of_mem Prod.fst hmem)

/-- C1: the serializer emits `@timestamp` first, then `module`, `file`,
`line` each exactly when set, then `level`, then `target`, and then every
entry of `fields` after all fixed keys. -/
theorem c1_serialize_key_order (r : LogStashRecord) :
    keysOf (serializeEntries r)
      = ["@timestamp"]
          ++ (match r.module with | some _ => ["module"] | none => [])
          ++ (match r.file with | some _ => ["file"] | none => [])
          ++ (match r.line with | some _ => ["line"] | none => [])
          ++ ["level", "target"]
          ++ keysOf r.fields := by
  rcases r with ⟨ts, m, f, l, lv, tg, tp, fs⟩
  cases m <;> cases f <;> cases l <;>
    simp [keysOf, serializeEntries, fixedEntries, optEntry]

/-- C4: the key set of the serialized object is exactly the union of the
fixed keys that are set and the keys of `fields`, and no entry is dropped:
the multiplicity of any key in the output is the sum of its multiplicities
in the fixed part and in `fields`. -/
theorem c4_serialized_key_set (r : LogStashRecord) (k : String) :
    (k ∈ keysOf (serializeEntries r) ↔
      k = "@timestamp" ∨ (k = "module" ∧ r.module.isSome)
        ∨ (k = "file" ∧ r.file.isSome) ∨ (k = "line" ∧ r.line.isSome)
        ∨ k = "level" ∨ k = "target" ∨ k ∈ keysOf r.fields) ∧
    countKey k (serializeEntries r)
      = countKey k (fixedEntries r) + countKey k r.fields := by
  constructor
  · rcases r with ⟨ts, m, f, l, lv, tg, tp, fs⟩
    cases m <;> cases f <;> cases l <;>
      simp [keysOf, serializeEntries, fixedEntries, optEntry]
  · exact countKey_append k (fixedEntries r) r.fields

/-- C5: when `fields` does not itself use the names `module`, `file`,
`line`, serialization includes each of those keys exactly when the
corresponding option is set, and an unset optional field is never emitted at
all — in particular never with a `null` value. -/
theorem c5_optional_keys (r : LogStashRecord)
    (hm : "module" ∉ keysOf r.fields) (hf : "file" ∉ keysOf r.fields)
    (hl : "line" ∉ keysOf r.fields) : OptionalKeySpec r := by
  obtain ⟨ts, m, f, l, lv, tg, tp, fs⟩ := r
  have hm' := fun v => not_mem_of_key_not_mem "module" fs v hm
  have hf' := fun v => not_mem_of_key_not_mem "file" fs v hf
  have hl' := fun v => not_mem_of_key_not_mem "line" fs v hl
  cases m <;> cases f <;> cases l <;>
    simp_all [OptionalKeySpec, keysOf, serializeEntries, fixedEntries,
      optEntry]

/-- Closed instance of `c5_optional_keys` at the concrete `sampleRecord`. -/
theorem c5_optional_keys_witness : OptionalKeySpec sampleRecord :=
  c5_optional_keys sampleRecord (by decide) (by decide) (by decide)

/-- C10: a `fields` key that equals an emitted fixed key name is emitted
twice — once by the fixed part in its fixed position and once by the
`fields` part — with neither entry dropped and neither value replacing the
other. -/
theorem c10_duplicate_keys (r : LogStashRecord) (k : String)
    (hnodup : (keysOf r.fields).Nodup)
    (hfixed : k ∈ keysOf (fixedEntries r))
    (hfields : k ∈ keysOf r.fields) : DuplicateKeySpec r k := by
  have h1 : countKey k (fixedEntries r) = 1 := by
    rw [countKey_eq_count]
    exact List.count_eq_one_of_mem (fixedEntries_keys_nodup r) hfixed
  have h2 : countKey k r.fields = 1 := by
    rw [countKey_eq_count]
    exact List.count_eq_one_of_mem hnodup hfields
  refine ⟨?_, h1, h2, ?_, ?_⟩
  · show countKey k (fixedEntries r ++ r.fields) = 2
    rw [countKey_append, h1, h2]
  · exact fun v hv => List.mem_append_left _ hv
  · exact fun v hv => List.mem_append_right _ hv

/-- Closed instance of `c10_duplicate_keys`: the concrete record whose
`fields` reuse the fixed key `"level"`. -/
theorem c10_duplicate_keys_witness : DuplicateKeySpec collisionRecord "level" :=
  c10_duplicate_keys collisionRecord "level" (by decide) (by decide)
    (by decide)

/-- Lemma: `padNum` always renders exactly the requested number of characters. -/
theorem padNum_length (w n : Nat) : (padNum w n).length = w := by
  induction w generalizing n with
  | zero => rfl
  | succ w ih => simp [padNum, ih]

/-- Every character `padNum` renders is a decimal digit. -/
theorem padNum_isDigit (w n : Nat) : ∀ c ∈ padNum w n, c.isDigit := by
  induction w generalizing n with
  | zero => simp [padNum]
  | succ w ih =>
    intro c hc
    rw [padNum] at hc
    rcases List.mem_append.mp hc with h | h
    · exact ih _ _ h
    · simp only [List.mem_singleton] at h
      subst h
      have h10 : n % 10 < 10 := Nat.mod_lt _ (by norm_num)
      set j := n % 10 with hj
      interval_cases j <;> decide

/-- Pulling the dot of a fractional part out of a character list. -/
theorem string_dot_shift (s : String) (l : List Char) :
    s ++ String.mk ('.' :: l) ++ "Z" = s ++ "." ++ String.mk l ++ "Z" := by
  rw [show String.mk ('.' :: l) = "." ++ String.mk l from rfl,
    ← String.append_assoc]

/-- C2: for any stored date-time satisfying chrono's sub-second invariant,
the serialized `@timestamp` has 0, 3, 6 or 9 fractional digits for `Secs`,
`Millis`, `Micros`, `Nanos`, shares the identical non-fractional prefix
`dateTimePart` across all four precisions, and always ends with the `Z` UTC
designator. -/
theorem c2_timestamp_precision (dt : DateTimeUtc)
    (h : dt.nanos < 1000000000) : PrecisionSpec dt := by
  refine ⟨?_, string_dot_shift _ _, string_dot_shift _ _, string_dot_shift _ _,
    padNum_length 3 _, padNum_length 6 _, padNum_length 9 _,
    padNum_isDigit 3 _, padNum_isDigit 6 _, padNum_isDigit 9 _,
    fun prec => ⟨dateTimePart dt.secs ++ String.mk (fracPart dt.nanos prec), rfl⟩⟩
  have e : toRfc3339Opts dt .secs = dateTimePart dt.secs ++ "" ++ "Z" := rfl
  rw [e]
  simp

/-- Closed instance of `c2_timestamp_precision` at the concrete
`dtSample`. -/
theorem c2_timestamp_precision_witness : PrecisionSpec dtSample :=
  c2_timestamp_precision dtSample (by decide)

end LogStash

